import Mathlib

/-!
# Verification of the medusa-plugin-service slot-scheduling engine

Shallow embedding of the appointment/availability core of the repository:

* `src/src/services/appointment.ts` — `AppointmentService`
  (`isOrderHaveAppointment`, `isSlotTimeAvailable`, `makeAppointment`,
  `delete`, `create`, `update`);
* the location service (`getSlotTime`) and the models
  (`Appointment`, `AppointmentStatus`, `Calendar`, `CalendarTimeperiod`).

Timestamps are minutes since an arbitrary epoch (`Nat`); a calendar day is
1440 minutes, and the date key produced by `formatDate` is modelled as the
day index `t / 1440`.

The repository's `src/utils/date-utils` module (`divideTimes`, `formatDate`,
`addDay`, `zeroTimes`) is not present in the source tree; those helpers are
modelled from the spec (SlotGrid, §4.1) and are marked as such below.
-/

deriving instance DecidableEq for Except

namespace MedusaService

/-- Minutes in one calendar day. -/
def minutesPerDay : Nat := 1440

/-- Modelled from the spec: `formatDate` of date-utils — the calendar-day
key of a timestamp (spec §4.1: slots are grouped by the calendar date the
slot start falls on). -/
def dayOf (t : Nat) : Nat := t / minutesPerDay

/-- Modelled from the spec: the core slot walk of `divideTimes`
(SlotGrid, spec §4.1) — walk `[tfrom, tto)` in fixed steps of `g` minutes,
emitting one slot-start per step; a final partial step is still emitted
(its start is `< tto`). -/
def slotStarts (tfrom tto g : Nat) : List Nat :=
  (List.range ((tto - tfrom + g - 1) / g)).map (fun i => tfrom + i * g)

/-- Modelled from the spec: `divideTimes` of date-utils
(SlotGrid, spec §4.1) — the slot starts of `[tfrom, tto)` at granularity
`g`, grouped by the calendar day the slot start falls on, days in order of
first occurrence. -/
def divideTimes (tfrom tto g : Nat) : List (Nat × List Nat) :=
  let slots := slotStarts tfrom tto g
  ((slots.map dayOf).dedup).map (fun d => (d, slots.filter (fun s => dayOf s == d)))

/-- Modelled from the spec: `addDay` of date-utils — advance a timestamp by
`n` calendar days. -/
def addDay (t n : Nat) : Nat := t + n * minutesPerDay

/-! ## Data model (src/src/models) -/

/-- The `type` column of `CalendarTimeperiod`. -/
inductive TPType
  | working_hour
  | breaktime
  | blocked
  | off
deriving DecidableEq, Repr

/-- `CalendarTimeperiod` entity: a typed interval `[tfrom, tto]` on a
calendar; `appointment_id` models `metadata.appointment_id`. (`from`/`to`
are reserved words in Lean, hence `tfrom`/`tto`.) -/
structure Timeperiod where
  id : Nat
  calendar_id : Nat
  type : TPType
  tfrom : Nat
  tto : Nat
  appointment_id : Option Nat := none
deriving DecidableEq, Repr

/-- `AppointmentStatus` enum of src/src/models/appointment.ts. -/
inductive AppointmentStatus
  | draft
  | scheduled
  | canceled
  | requires_action
  | pending
  | reschedule
  | on_progress
  | finished
deriving DecidableEq, Repr

/-- `Appointment` entity; `calendar_timeperiod_id` models
`metadata.calendar_timeperiod_id`, `deleted` models the soft-delete column
`deleted_at` being set. -/
structure Appointment where
  id : Nat
  order_id : Option Nat
  status : AppointmentStatus
  afrom : Option Nat := none
  ato : Option Nat := none
  is_confirmed : Bool := false
  calendar_timeperiod_id : Option Nat := none
  deleted : Bool := false
deriving DecidableEq, Repr

/-- Events emitted via the event bus. -/
inductive BusEvent
  | created (id : Nat)
  | updated (id : Nat)
  | deleted (id : Nat)
deriving DecidableEq, Repr

/-- Persistent store state: the rows of the appointment and timeperiod
tables, the existing calendar and location ids, the emitted events, and a
fresh-id counter standing in for `generateEntityId`. -/
structure BookState where
  appointments : List Appointment
  timeperiods : List Timeperiod
  calendars : List Nat
  locations : List Nat
  events : List BusEvent := []
  nextId : Nat := 0
deriving DecidableEq, Repr

/-! ## Timeperiod listing (calendarTimeperiod_.list as called by getSlotTime) -/

/-- The filter built by `getSlotTime`'s calls to `calendarTimeperiod_.list`:
`{ calendar_id: cx.id, from: { gte: dateFrom, lte: dateTo }, to: { gte:
dateFrom, lte: dateTo }, type: ... }` — note both endpoints must lie inside
`[dateFrom, dateTo]`. -/
def timeperiodMatches (cid : Nat) (types : List TPType) (dateFrom dateTo : Nat)
    (p : Timeperiod) : Bool :=
  p.calendar_id == cid && types.contains p.type &&
    decide (dateFrom ≤ p.tfrom) && decide (p.tfrom ≤ dateTo) &&
    decide (dateFrom ≤ p.tto) && decide (p.tto ≤ dateTo)

/-- Insert into a list sorted by `tfrom` descending. -/
def insertByFromDesc (p : Timeperiod) : List Timeperiod → List Timeperiod
  | [] => [p]
  | q :: qs => if q.tfrom ≤ p.tfrom then p :: q :: qs else q :: insertByFromDesc p qs

/-- Sort by `tfrom` descending (the `order: { from: "DESC" }` option). -/
def sortByFromDesc (l : List Timeperiod) : List Timeperiod :=
  l.foldr insertByFromDesc []

/-- `calendarTimeperiod_.list` as invoked by `getSlotTime`: filter the
timeperiod table by calendar, type and window, then order by `from`
descending. -/
def listTimeperiods (tps : List Timeperiod) (cid : Nat) (types : List TPType)
    (dateFrom dateTo : Nat) : List Timeperiod :=
  sortByFromDesc (tps.filter (timeperiodMatches cid types dateFrom dateTo))

/-! ## getSlotTime (LocationService) -/

/-- The `divideBy` constant of `getSlotTime` (the code comment says "divide
into hours by 5 minutes" but the constant is 15). -/
def getSlotTime_divideBy : Nat := 15

/-- The discretization of one timeperiod at `getSlotTime`'s granularity
(the day-keyed `divideTimes` result as consumed by the accumulation
loops). -/
def periodSlots (p : Timeperiod) : List Nat :=
  slotStarts p.tfrom p.tto getSlotTime_divideBy

/-- The working/blocking periods among `ps` keyed to day `d`, in processing
order. -/
def dayFilter (ps : List Timeperiod) (d : Nat) : List Timeperiod :=
  ps.filter (fun p => dayOf p.tfrom == d)

/-- Day-keyed association-list lookup (JS `m[k]`). -/
def lookupDay (m : List (Nat × List Nat)) (d : Nat) : Option (List Nat) :=
  (m.find? (fun e => e.1 == d)).map Prod.snd

/-- Day-keyed assignment (JS `m[k] = v`): overwrite if the key exists,
append otherwise (JS objects keep the key's insertion position). -/
def setDay (m : List (Nat × List Nat)) (d : Nat) (v : List Nat) :
    List (Nat × List Nat) :=
  if m.any (fun e => e.1 == d) then
    m.map (fun e => if e.1 == d then (d, v) else e)
  else m ++ [(d, v)]

/-- Day-keyed accumulation (JS `if (!m[k]) m[k] = []; vs.map(x => m[k].push(x))`). -/
def appendDay (m : List (Nat × List Nat)) (d : Nat) (v : List Nat) :
    List (Nat × List Nat) :=
  match lookupDay m d with
  | none => m ++ [(d, v)]
  | some old => setDay m d (old ++ v)

/-- The `workingTimes` accumulation of `getSlotTime`: for each working
period, `workingTimes[formatDate(x.from)] = divideTimes(x.from, x.to, 15)`
— an overwriting assignment. -/
def workingTimesFold (ps : List Timeperiod) : List (Nat × List Nat) :=
  ps.foldl (fun m x => setDay m (dayOf x.tfrom) (periodSlots x)) []

/-- The `blockedTimes` accumulation of `getSlotTime`: for each blocking
period, push every slot of `divideTimes(x.from, x.to, 15)` onto
`blockedTimes[formatDate(x.from)]`. -/
def blockedTimesFold (ps : List Timeperiod) : List (Nat × List Nat) :=
  ps.foldl (fun m x => appendDay m (dayOf x.tfrom) (periodSlots x)) []

/-- One availability entry (`{ date, slot_times }`). -/
structure AvailEntry where
  date : Nat
  slot_times : List Nat
deriving DecidableEq, Repr

/-- The per-calendar body of `getSlotTime`: list working and blocking
periods in the window, accumulate day-keyed slot maps, and emit one entry
per working day with `slot_times = workingTimes[x]` filtered by
`!blockedTimes[x].includes(item)` when a blocked entry exists. -/
def calendarAvailability (tps : List Timeperiod) (cid dateFrom dateTo : Nat) :
    List AvailEntry :=
  let workingTimerperiod := listTimeperiods tps cid [.working_hour] dateFrom dateTo
  let blockedTimerperiod := listTimeperiods tps cid [.breaktime, .blocked, .off] dateFrom dateTo
  let workingTimes := workingTimesFold workingTimerperiod
  let blockedTimes := blockedTimesFold blockedTimerperiod
  workingTimes.map (fun e =>
    { date := e.1
      slot_times :=
        match lookupDay blockedTimes e.1 with
        | none => e.2
        | some bs => e.2.filter (fun t => !bs.contains t) })

/-- `LocationService.getSlotTime` with both `from` and `to` supplied: the
window is `[from, addDay(to, 1)]`, and the per-calendar availability
entries of every calendar of the location are concatenated. -/
def getSlotTime (tps : List Timeperiod) (calendars : List Nat) (tfrom tto : Nat) :
    List AvailEntry :=
  calendars.foldl
    (fun acc cid => acc ++ calendarAvailability tps cid tfrom (addDay tto 1)) []

/-! ## isSlotTimeAvailable (AppointmentService) -/

/-- The `divideBy` constant of `AppointmentService.isSlotTimeAvailable`. -/
def isSlotTimeAvailable_divideBy : Nat := 5

/-- JS `availableSlotTime.filter(slotTime => slotTime.date == dateKey)[0]`:
the first availability entry whose date matches, if any. -/
def firstEntryFor (avail : List AvailEntry) (d : Nat) : Option AvailEntry :=
  (avail.filter (fun a => a.date == d)).head?

/-- The day loop of `isSlotTimeAvailable`. When a day has no matching
availability entry the code evaluates `undefined.slot_times` and throws a
TypeError — modelled as `none`; otherwise the first uncovered slot returns
`some false`, and `some true` is returned when every day passes. -/
def checkDays (avail : List AvailEntry) : List (Nat × List Nat) → Option Bool
  | [] => some true
  | (d, slots) :: rest =>
    match firstEntryFor avail d with
    | none => none
    | some a =>
      if slots.all (fun s => a.slot_times.contains s) then checkDays avail rest
      else some false

/-- `AppointmentService.isSlotTimeAvailable`: discretize `[tfrom, tto)` at
granularity 5 grouped by day, then check each day's slots against the first
matching availability entry. `none` models the TypeError thrown when a
spanned day has no entry. -/
def isSlotTimeAvailable (tfrom tto : Nat) (availableSlotTime : List AvailEntry) :
    Option Bool :=
  checkDays availableSlotTime (divideTimes tfrom tto isSlotTimeAvailable_divideBy)

/-! ## Duration resolution (makeAppointment's item loop) -/

/-- One line item, reduced to the two metadata reads the loop performs:
`x.variant.metadata?.duration_min` and
`x.variant.product.metadata?.duration_min`. `none` models an absent value,
whose JS numeric coercion `+undefined` is NaN. -/
structure BookLineItem where
  variant_duration : Option Int
  product_duration : Option Int
deriving DecidableEq, Repr

/-- JS `+v > 0`: false when the coercion yields NaN. -/
def jsPos : Option Int → Bool
  | some v => decide (0 < v)
  | none => false

/-- The per-item branch: `if (+variant_time > 0) duration_min =
+variant_time; else duration_min = +product_time`. -/
def itemDuration (x : BookLineItem) : Option Int :=
  if jsPos x.variant_duration then x.variant_duration else x.product_duration

/-- JS addition with NaN absorption: `a + NaN = NaN`. -/
def jsAdd : Option Int → Option Int → Option Int
  | some a, some b => some (a + b)
  | _, _ => none

/-- The `totalDurationMin` accumulation of `makeAppointment`: start at 0
and add each item's resolved `duration_min` with JS semantics (an
unresolvable item poisons the total to NaN). -/
def resolveTotalMinutes (items : List BookLineItem) : Option Int :=
  items.foldl (fun acc x => jsAdd acc (itemDuration x)) (some 0)

/-! ## AppointmentService store operations -/

/-- `AppointmentService.list({ order_id })` with the default config
`{ skip: 0, take: 50, relations: [] }`: soft-deleted rows are excluded by
the store and `buildQuery` forwards the pagination, so at most the first
50 live rows of the order are returned. -/
def listByOrder (st : BookState) (oid : Nat) : List Appointment :=
  (st.appointments.filter (fun a => a.order_id == some oid && !a.deleted)).take 50

/-- `AppointmentService.isOrderHaveAppointment`: count the order's
appointments with status `scheduled`; true iff the count is positive. -/
def isOrderHaveAppointment (st : BookState) (oid : Nat) : Bool :=
  0 < (listByOrder st oid).countP (fun a => a.status == .scheduled)

/-- `AppointmentService.create`: insert a new appointment row and emit
`appointment.created`. Commits in its own `atomicPhase_` transaction. -/
def createAppointment (st : BookState) (oid : Nat) (status : AppointmentStatus)
    (is_confirmed : Bool) : Appointment × BookState :=
  let a : Appointment :=
    { id := st.nextId, order_id := some oid, status := status, is_confirmed := is_confirmed }
  (a, { st with
        appointments := st.appointments ++ [a]
        nextId := st.nextId + 1
        events := st.events ++ [.created a.id] })

/-- `CalendarTimeperiodService.create` as called by `makeAppointment`:
insert a blocking timeperiod row. Commits in its own transaction. -/
def createTimeperiod (st : BookState) (cid : Nat) (type : TPType)
    (tfrom tto : Nat) (appointment_id : Option Nat) : Timeperiod × BookState :=
  let p : Timeperiod :=
    { id := st.nextId, calendar_id := cid, type := type, tfrom := tfrom, tto := tto
      appointment_id := appointment_id }
  (p, { st with timeperiods := st.timeperiods ++ [p], nextId := st.nextId + 1 })

/-- `AppointmentService.update` as called by `makeAppointment`: set status,
`from`/`to` and `metadata.calendar_timeperiod_id`, and emit
`appointment.updated`. Commits in its own `atomicPhase_` transaction. -/
def updateAppointment (st : BookState) (aid : Nat) (status : AppointmentStatus)
    (tfrom tto : Nat) (tpid : Nat) : BookState :=
  { st with
    appointments := st.appointments.map (fun a =>
      if a.id == aid then
        { a with status := status, afrom := some tfrom, ato := some tto
                 calendar_timeperiod_id := some tpid }
      else a)
    events := st.events ++ [.updated aid] }

/-- `AppointmentService.delete`: look the row up (soft-deleted rows are
invisible to `findOne`); if absent, return silently; otherwise
`softRemove` it and emit `appointment.deleted`. -/
def deleteAppointment (st : BookState) (aid : Nat) : BookState :=
  match st.appointments.find? (fun a => a.id == aid && !a.deleted) with
  | none => st
  | some _ =>
    { st with
      appointments := st.appointments.map (fun a =>
        if a.id == aid && !a.deleted then { a with deleted := true } else a)
      events := st.events ++ [.deleted aid] }

/-! ## makeAppointment (AppointmentService) -/

/-- The typed failures `makeAppointment` can surface. In the source these
are `MedusaError`s: `calendarNotFound` / `locationNotFound` are NotFound
from the `retrieve` calls; `orderAlreadyHaveAppointment` is the
"Order Already Have Appointment !" rejection (the spec taxonomy's Conflict
for a duplicate booking); `slotTimeNotAvailable` is "Slot Time Not
Available!"; `availabilityLookupFailed` is the TypeError escaping
`isSlotTimeAvailable`; `nanDuration` models the poisoned slot arithmetic
when `totalDurationMin` is NaN (then `slot_time_until` is an Invalid Date
and no valid booking can be committed); `persistFailed` is an injected
persistence-layer failure. -/
inductive BookError
  | calendarNotFound
  | orderAlreadyHaveAppointment
  | locationNotFound
  | nanDuration
  | slotTimeNotAvailable
  | availabilityLookupFailed
  | persistFailed
deriving DecidableEq, Repr

/-- The input object of `makeAppointment`. -/
structure MakeAppointmentInput where
  order_id : Nat
  location_id : Nat
  calendar_id : Nat
  slot_time : Nat
deriving DecidableEq, Repr

/-- Modelled from the spec: `location_.getSlotTime_` (AvailabilityCalculator,
spec §4.5 step 4) is not present in the source tree; it is modelled as the
per-calendar availability of the repository's `getSlotTime` core over the
booking window. -/
def getSlotTimeUnderscore (st : BookState) (cid tfrom tto : Nat) : List AvailEntry :=
  calendarAvailability st.timeperiods cid tfrom (addDay tto 1)

/-- The pre-persistence phase of `makeAppointment`: calendar existence
check, duplicate-appointment check, location retrieval, duration
resolution, and `slot_time_until = slot_time + totalDurationMin` (minutes).
Returns `slot_time_until` on success. -/
def bookingPrelude (st : BookState) (inp : MakeAppointmentInput)
    (items : List BookLineItem) : Except BookError Nat :=
  if !st.calendars.contains inp.calendar_id then .error .calendarNotFound
  else if isOrderHaveAppointment st inp.order_id then .error .orderAlreadyHaveAppointment
  else if !st.locations.contains inp.location_id then .error .locationNotFound
  else
    match resolveTotalMinutes items with
    | none => .error .nanDuration
    | some d => .ok ((inp.slot_time : Int) + d).toNat

/-- The validation step of `makeAppointment`: fetch availability for the
calendar over the booking window and run `isSlotTimeAvailable` on it,
against a given snapshot state. -/
def bookingValidated (st : BookState) (inp : MakeAppointmentInput)
    (slotTimeUntil : Nat) : Option Bool :=
  isSlotTimeAvailable inp.slot_time slotTimeUntil
    (getSlotTimeUnderscore st inp.calendar_id inp.slot_time slotTimeUntil)

/-- The persistence phase of `makeAppointment`. The three writes — create
the draft Appointment, create the blocking Timeperiod, update the
Appointment to `scheduled` — each run in their own transaction
(`makeAppointment` itself opens none), so each commits as soon as it
completes. `failAfter = some k` injects a persistence failure after `k`
writes have committed; the pair returned is (outcome, resulting store
state). -/
def bookingPersist (st : BookState) (inp : MakeAppointmentInput)
    (slotTimeUntil : Nat) (failAfter : Option Nat) :
    Except BookError BookState × BookState :=
  if failAfter = some 0 then (.error .persistFailed, st)
  else
    let (ap, st1) := createAppointment st inp.order_id .draft false
    if failAfter = some 1 then (.error .persistFailed, st1)
    else
      let (tp, st2) := createTimeperiod st1 inp.calendar_id .blocked
        inp.slot_time slotTimeUntil (some ap.id)
      if failAfter = some 2 then (.error .persistFailed, st2)
      else
        let st3 := updateAppointment st2 ap.id .scheduled inp.slot_time slotTimeUntil tp.id
        (.ok st3, st3)

/-- `AppointmentService.makeAppointment`: prelude checks, availability
fetch + validation, then the three persistence writes. The pair returned
is (outcome, resulting store state) so that the effect of a mid-flight
failure on the store is observable. -/
def makeAppointment (st : BookState) (inp : MakeAppointmentInput)
    (items : List BookLineItem) (failAfter : Option Nat) :
    Except BookError BookState × BookState :=
  match bookingPrelude st inp items with
  | .error e => (.error e, st)
  | .ok slotTimeUntil =>
    match bookingValidated st inp slotTimeUntil with
    | none => (.error .availabilityLookupFailed, st)
    | some false => (.error .slotTimeNotAvailable, st)
    | some true => bookingPersist st inp slotTimeUntil failAfter

/-- Two concurrent `makeAppointment` calls interleaved so that both
availability reads happen before either write (both reads await I/O, so
this interleaving is schedulable): A and B validate against the same
snapshot `st`, then A persists, then B persists. -/
def twoBookingsInterleaved (st : BookState) (inpA inpB : MakeAppointmentInput)
    (untilA untilB : Nat) : BookState :=
  let validA := bookingValidated st inpA untilA
  let validB := bookingValidated st inpB untilB
  let st1 := if validA = some true then (bookingPersist st inpA untilA none).2 else st
  if validB = some true then (bookingPersist st1 inpB untilB none).2 else st1

/-- The per-day working slot set availability computation uses: the value
stored under day `d` in `getSlotTime`'s `workingTimes` map (empty when the
day has none). -/
def workingSlotsOf (tps : List Timeperiod) (cid a b d : Nat) : List Nat :=
  (lookupDay (workingTimesFold (listTimeperiods tps cid [.working_hour] a b)) d).getD []

/-- The per-day blocking slot set availability computation uses: the value
stored under day `d` in `getSlotTime`'s `blockedTimes` map (empty when the
day has none). -/
def blockedSlotsOf (tps : List Timeperiod) (cid a b d : Nat) : List Nat :=
  (lookupDay (blockedTimesFold (listTimeperiods tps cid [.breaktime, .blocked, .off] a b)) d).getD []

/-- A store with one calendar (id 1) whose only timeperiod is a working
hour `[600, 605)`, one location (id 1), and no appointments: a slot that is
genuinely free for exactly one 5-minute booking. -/
def freeSlotState : BookState :=
  ⟨[], [⟨100, 1, .working_hour, 600, 605, none⟩], [1], [1], [], 0⟩

/-- A booking request for `order_id`, location 1, calendar 1, at minute
600. -/
def bookAt600 (order_id : Nat) : MakeAppointmentInput := ⟨order_id, 1, 1, 600⟩

/-- A store in which order 10 has 51 live appointment rows: 50 drafts
followed by one `scheduled` row, which therefore lies beyond the 50-row
window that `AppointmentService.list`'s default `take: 50` inspects.
Calendar 1 (location 1) has a free working slot `[600, 605)`. -/
def manyDraftsState : BookState :=
  ⟨(List.range 50).map (fun i => ⟨i, some 10, .draft, none, none, false, none, false⟩) ++
      [⟨50, some 10, .scheduled, some 0, some 5, false, none, false⟩],
    [⟨100, 1, .working_hour, 600, 605, none⟩], [1], [1], [], 101⟩

/-! # Theorems -/

/-- C1: `makeAppointment` opens no transaction around its three
persistence writes — each of `create`, `calendarTimeperiod_.create` and
`update` commits in its own `atomicPhase_`. On the free-slot store, a
booking that reaches the persistence step and fails after the first write
leaves a committed `draft` Appointment and no blocking Timeperiod: partial
state survives, contradicting all-or-nothing atomicity. (The same request
with no failure commits all three writes and ends `scheduled`, showing the
persistence step is genuinely reached.) -/
theorem c1_no_transaction_partial_state :
    (makeAppointment freeSlotState (bookAt600 10) [⟨some 5, none⟩] (some 1)).1 =
        .error .persistFailed ∧
    (makeAppointment freeSlotState (bookAt600 10) [⟨some 5, none⟩] (some 1)).2.appointments.countP
        (fun a => a.order_id == some 10 && a.status == .draft) = 1 ∧
    (makeAppointment freeSlotState (bookAt600 10) [⟨some 5, none⟩] (some 1)).2.timeperiods.countP
        (fun p => p.type == .blocked) = 0 ∧
    (makeAppointment freeSlotState (bookAt600 10) [⟨some 5, none⟩] none).2.appointments.countP
        (fun a => a.status == .scheduled) = 1 := by
  decide

/-- C2: the discretization granularities of the two components differ —
`getSlotTime` builds availability on a 15-minute grid while
`isSlotTimeAvailable` validates on a 5-minute grid, so the same interval is
discretized at different step widths (here `[600, 630)`). -/
theorem c2_granularity_mismatch :
    getSlotTime_divideBy = 15 ∧ isSlotTimeAvailable_divideBy = 5 ∧
    getSlotTime_divideBy ≠ isSlotTimeAvailable_divideBy ∧
    divideTimes 600 630 getSlotTime_divideBy ≠
      divideTimes 600 630 isSlotTimeAvailable_divideBy := by
  decide

/-- C3 counterexample: requesting `[0, 5)` against an availability with no
entry for the spanned day makes `isSlotTimeAvailable` evaluate
`undefined.slot_times` and throw (modelled `none`); it does not return
false. -/
theorem c3_counterexample :
    isSlotTimeAvailable 0 5 [] = none ∧
    isSlotTimeAvailable 0 5 [] ≠ some false := by
  decide

/-- C5 counterexample: a line item with neither a variant nor a product
`duration_min` contributes NaN (the JS coercion `+undefined`), so the total
duration is NaN, not 0. -/
theorem c5_counterexample :
    resolveTotalMinutes [⟨none, none⟩] = none ∧
    resolveTotalMinutes [⟨none, none⟩] ≠ some 0 := by
  decide

/-- C6 counterexample: a calendar with two working-hour periods on the same
day, `[660, 720)` and `[540, 600)`. Slot 660 belongs to the discretization
of the first period, so the union of discretizations contains it, yet the
availability computation's per-day working set — and hence the availability
entry — drops it: `workingTimes[day] = divideTimes(...)` overwrites, it
does not union. -/
theorem c6_counterexample :
    660 ∈ slotStarts 660 720 getSlotTime_divideBy ∧
    calendarAvailability
        [⟨1, 1, .working_hour, 660, 720, none⟩, ⟨2, 1, .working_hour, 540, 600, none⟩]
        1 0 2000 = [⟨0, [540, 555, 570, 585]⟩] ∧
    660 ∉ [540, 555, 570, 585] := by
  decide

/-- C8 counterexample: a working-hour period `[50, 150]` intersects the
query window `[100, 200]`, but because the fetch filter demands both
endpoints inside the window (`from: {gte, lte}, to: {gte, lte}`), the
period is not listed and `getSlotTime` returns no availability at all. -/
theorem c8_counterexample :
    (Timeperiod.tfrom ⟨1, 1, .working_hour, 50, 150, none⟩ ≤ 200 ∧
      100 ≤ Timeperiod.tto ⟨1, 1, .working_hour, 50, 150, none⟩) ∧
    listTimeperiods [⟨1, 1, .working_hour, 50, 150, none⟩] 1 [.working_hour]
      100 (addDay 200 1) = [] ∧
    getSlotTime [⟨1, 1, .working_hour, 50, 150, none⟩] [1] 100 200 = [] := by
  decide

/-- C9: under the interleaving in which both bookings read availability
before either writes, two requests for the same calendar and the identical
interval `[600, 605)` both validate against the free snapshot and both
commit: the final store holds two `scheduled` appointments and two
identical blocking timeperiods. A re-read after the first commit would have
rejected the second (last conjunct), so the stale read is exactly what the
code fails to guard. -/
theorem c9_double_booking_interleaving :
    bookingPrelude freeSlotState (bookAt600 10) [⟨some 5, none⟩] = .ok 605 ∧
    bookingPrelude freeSlotState (bookAt600 11) [⟨some 5, none⟩] = .ok 605 ∧
    (twoBookingsInterleaved freeSlotState (bookAt600 10) (bookAt600 11) 605 605).appointments.countP
        (fun a => a.status == .scheduled) = 2 ∧
    (twoBookingsInterleaved freeSlotState (bookAt600 10) (bookAt600 11) 605 605).timeperiods.countP
        (fun p => p.type == .blocked && p.tfrom == 600 && p.tto == 605) = 2 ∧
    bookingValidated (bookingPersist freeSlotState (bookAt600 10) 605 none).2
        (bookAt600 11) 605 = some false := by
  decide

/-- Helper: `isOrderHaveAppointment` reads only the appointment table. -/
theorem isOrderHaveAppointment_timeperiods (st : BookState) (tps2 : List Timeperiod)
    (oid : Nat) :
    isOrderHaveAppointment { st with timeperiods := tps2 } oid =
      isOrderHaveAppointment st oid := rfl

/-- Helper: the prelude rejects with the duplicate error exactly when the
calendar check passes and the order already has a scheduled appointment. -/
theorem bookingPrelude_dup_iff (st : BookState) (inp : MakeAppointmentInput)
    (items : List BookLineItem) :
    bookingPrelude st inp items = .error .orderAlreadyHaveAppointment ↔
      st.calendars.contains inp.calendar_id = true ∧
        isOrderHaveAppointment st inp.order_id = true := by
  unfold bookingPrelude
  repeat' split
  all_goals simp_all

/-- Helper: `makeAppointment` surfaces the duplicate error exactly when the
prelude produces it; the later stages (validation, persistence) never do. -/
theorem makeAppointment_fst_dup_iff (st : BookState) (inp : MakeAppointmentInput)
    (items : List BookLineItem) (failAfter : Option Nat) :
    (makeAppointment st inp items failAfter).1 = .error .orderAlreadyHaveAppointment ↔
      bookingPrelude st inp items = .error .orderAlreadyHaveAppointment := by
  unfold makeAppointment
  cases hp : bookingPrelude st inp items with
  | error e => simp
  | ok u =>
    cases hv : bookingValidated st inp u with
    | none => simp [hv]
    | some b =>
      cases b
      · simp [hv]
      · simp only [hv, bookingPersist]
        repeat' split
        all_goals simp

/-- C4 counterexample: order 10 already has a `scheduled` appointment, but
it is the 51st live row, beyond the `take: 50` window that the duplicate
check inspects — so `isOrderHaveAppointment` is false, `makeAppointment`
does not reject with the duplicate Conflict, and the booking commits a
second `scheduled` appointment for the same order. -/
theorem c4_counterexample :
    manyDraftsState.appointments.countP
        (fun a => a.order_id == some 10 && a.status == .scheduled && !a.deleted) = 1 ∧
    isOrderHaveAppointment manyDraftsState 10 = false ∧
    (makeAppointment manyDraftsState (bookAt600 10) [⟨some 5, none⟩] none).1 ≠
      .error .orderAlreadyHaveAppointment ∧
    (makeAppointment manyDraftsState (bookAt600 10) [⟨some 5, none⟩] none).2.appointments.countP
        (fun a => a.order_id == some 10 && a.status == .scheduled) = 2 := by
  decide

/-- C4 (amended): the duplicate check inspects only the first 50 live
appointment rows of the order (`AppointmentService.list`'s default
`take: 50` config). (i) `isOrderHaveAppointment` is true exactly when a
`scheduled` appointment is among those first 50 rows; other statuses never
trigger it. (ii) When the calendar exists and the flag is true,
`makeAppointment` rejects with the "Order Already Have Appointment"
Conflict, leaves the store untouched, and the outcome is independent of
the timeperiod table — the availability data — so no availability is
consulted and no write occurs. (iii) When no scheduled appointment is
among the inspected rows, the duplicate rejection is never raised (a
scheduled row beyond the 50-row window is missed and the booking
proceeds). -/
theorem c4_amended_duplicate_check :
    (∀ (st : BookState) (oid : Nat),
      isOrderHaveAppointment st oid = true ↔
        ∃ a ∈ (st.appointments.filter
            (fun a => a.order_id == some oid && !a.deleted)).take 50,
          a.status = .scheduled) ∧
    (∀ (st : BookState) (inp : MakeAppointmentInput) (items : List BookLineItem)
        (failAfter : Option Nat) (tps2 : List Timeperiod),
      st.calendars.contains inp.calendar_id = true →
      isOrderHaveAppointment st inp.order_id = true →
      makeAppointment { st with timeperiods := tps2 } inp items failAfter =
        (.error .orderAlreadyHaveAppointment, { st with timeperiods := tps2 })) ∧
    (∀ (st : BookState) (inp : MakeAppointmentInput) (items : List BookLineItem)
        (failAfter : Option Nat),
      isOrderHaveAppointment st inp.order_id = false →
      (makeAppointment st inp items failAfter).1 ≠ .error .orderAlreadyHaveAppointment) := by
  refine ⟨?_, ?_, ?_⟩
  · intro st oid
    simp [isOrderHaveAppointment, listByOrder, List.countP_pos_iff, beq_iff_eq]
  · intro st inp items failAfter tps2 h1 h2
    have h2' : isOrderHaveAppointment { st with timeperiods := tps2 } inp.order_id = true := h2
    have hq : bookingPrelude { st with timeperiods := tps2 } inp items =
        .error .orderAlreadyHaveAppointment :=
      (bookingPrelude_dup_iff _ _ _).2 ⟨h1, h2'⟩
    simp [makeAppointment, hq]
  · intro st inp items failAfter h
    intro hcontra
    have := (bookingPrelude_dup_iff st inp items).1
      ((makeAppointment_fst_dup_iff st inp items failAfter).1 hcontra)
    simp [h] at this

/-- Helper: after soft-removing every matching row, no live row with the
target id remains visible to `findOne`. -/
theorem find?_markDeleted (aid : Nat) (l : List Appointment) :
    (l.map (fun a => if a.id == aid && !a.deleted then { a with deleted := true } else a)).find?
      (fun a => a.id == aid && !a.deleted) = none := by
  induction l with
  | nil => rfl
  | cons a l ih =>
    simp only [List.map_cons, List.find?_cons]
    have hh : ((if a.id == aid && !a.deleted then { a with deleted := true } else a).id == aid &&
        !(if a.id == aid && !a.deleted then { a with deleted := true } else a).deleted) = false := by
      cases h : (a.id == aid && !a.deleted) with
      | true => simp
      | false => simpa using h
    rw [hh]
    exact ih

/-- Helper: `delete` on an id with no live row is the identity. -/
theorem deleteAppointment_noop (st : BookState) (aid : Nat)
    (h : st.appointments.find? (fun a => a.id == aid && !a.deleted) = none) :
    deleteAppointment st aid = st := by
  unfold deleteAppointment
  rw [h]

/-- Helper: `delete` on a live row soft-removes matching rows and emits the
event. -/
theorem deleteAppointment_found (st : BookState) (aid : Nat) (a : Appointment)
    (h : st.appointments.find? (fun a => a.id == aid && !a.deleted) = some a) :
    deleteAppointment st aid =
      { st with
        appointments := st.appointments.map (fun a =>
          if a.id == aid && !a.deleted then { a with deleted := true } else a)
        events := st.events ++ [.deleted aid] } := by
  unfold deleteAppointment
  rw [h]

/-- C10: `delete` on an id with no live appointment row is a silent no-op —
state unchanged, no `appointment.deleted` event; on a live row it
soft-removes the row and emits `appointment.deleted` with that id; and the
operation is idempotent at the public interface (a second call is the
no-op case). -/
theorem c10_delete_idempotent :
    (∀ (st : BookState) (aid : Nat),
      st.appointments.find? (fun a => a.id == aid && !a.deleted) = none →
      deleteAppointment st aid = st) ∧
    (∀ (st : BookState) (aid : Nat) (a : Appointment),
      st.appointments.find? (fun a => a.id == aid && !a.deleted) = some a →
      (deleteAppointment st aid).appointments =
        st.appointments.map (fun a =>
          if a.id == aid && !a.deleted then { a with deleted := true } else a) ∧
      (deleteAppointment st aid).events = st.events ++ [.deleted aid]) ∧
    (∀ (st : BookState) (aid : Nat),
      deleteAppointment (deleteAppointment st aid) aid = deleteAppointment st aid) := by
  refine ⟨?_, ?_, ?_⟩
  · intro st aid h
    exact deleteAppointment_noop st aid h
  · intro st aid a h
    rw [deleteAppointment_found st aid a h]
    exact ⟨rfl, rfl⟩
  · intro st aid
    cases h : st.appointments.find? (fun a => a.id == aid && !a.deleted) with
    | none => rw [deleteAppointment_noop st aid h, deleteAppointment_noop st aid h]
    | some a =>
      refine deleteAppointment_noop _ _ ?_
      rw [deleteAppointment_found st aid a h]
      exact find?_markDeleted aid st.appointments

/-- Helper: JS addition from NaN stays NaN across the item fold. -/
theorem jsAdd_foldl_none (items : List BookLineItem) :
    items.foldl (fun acc x => jsAdd acc (itemDuration x)) none = none := by
  induction items with
  | nil => rfl
  | cons x l ih =>
    have hx : jsAdd none (itemDuration x) = none := by
      cases itemDuration x <;> rfl
    simp only [List.foldl_cons, hx, ih]

/-- Helper: when every item resolves, the fold is ordinary addition. -/
theorem jsAdd_foldl_some (items : List BookLineItem)
    (h : ∀ x ∈ items, itemDuration x ≠ none) (acc : Int) :
    items.foldl (fun a x => jsAdd a (itemDuration x)) (some acc) =
      some (acc + (items.map (fun x => (itemDuration x).getD 0)).sum) := by
  induction items generalizing acc with
  | nil => simp
  | cons x l ih =>
    obtain ⟨d, hd⟩ : ∃ d, itemDuration x = some d := by
      cases hx : itemDuration x with
      | none => exact absurd hx (h x (by simp))
      | some d => exact ⟨d, rfl⟩
    have hmem : ∀ y ∈ l, itemDuration y ≠ none := fun y hy => h y (by simp [hy])
    have hstep : jsAdd (some acc) (some d) = some (acc + d) := rfl
    simp only [List.foldl_cons, hd, hstep, List.map_cons, List.sum_cons,
      Option.getD_some, ih hmem]
    rw [add_assoc]

/-- Helper: one unresolvable item poisons the whole fold to NaN. -/
theorem jsAdd_foldl_poisoned (items : List BookLineItem)
    (h : ∃ x ∈ items, itemDuration x = none) (acc : Option Int) :
    items.foldl (fun a x => jsAdd a (itemDuration x)) acc = none := by
  induction items generalizing acc with
  | nil => obtain ⟨x, hx, _⟩ := h; cases hx
  | cons y l ih =>
    obtain ⟨x, hx, hnone⟩ := h
    rcases List.mem_cons.mp hx with hxy | hxl
    · have hy : jsAdd acc (itemDuration y) = none := by
        rw [← hxy] at *
        rw [hnone]
        cases acc <;> rfl
      simp only [List.foldl_cons, hy]
      exact jsAdd_foldl_none l
    · simp only [List.foldl_cons]
      exact ih ⟨x, hxl, hnone⟩ _

/-- C5 (amended): per item, a present positive variant `duration_min` wins;
otherwise the product-level value is used verbatim — including when it is
absent, in which case the item contributes NaN (`+undefined`), not 0.
When every item resolves, the total is the ordinary sum of the
contributions; when any item has an unresolvable duration the whole total
is NaN. -/
theorem c5_amended_duration_resolution :
    (∀ (v : Int) (p : Option Int),
      itemDuration ⟨some v, p⟩ = if 0 < v then some v else p) ∧
    (∀ p : Option Int, itemDuration ⟨none, p⟩ = p) ∧
    (∀ items : List BookLineItem, (∀ x ∈ items, itemDuration x ≠ none) →
      resolveTotalMinutes items =
        some ((items.map (fun x => (itemDuration x).getD 0)).sum)) ∧
    (∀ items : List BookLineItem, (∃ x ∈ items, itemDuration x = none) →
      resolveTotalMinutes items = none) := by
  refine ⟨?_, ?_, ?_, ?_⟩
  · intro v p
    by_cases h : 0 < v <;> simp [itemDuration, jsPos, h]
  · intro p
    rfl
  · intro items h
    unfold resolveTotalMinutes
    rw [jsAdd_foldl_some items h 0, zero_add]
  · intro items h
    exact jsAdd_foldl_poisoned items h (some 0)

/-- C5 witness: a concrete item with no variant duration and product
duration 30 contributes 30; a concrete item with both absent poisons the
total to NaN. -/
theorem c5_amended_duration_resolution_witness :
    resolveTotalMinutes [⟨none, some 30⟩] =
      some (([(⟨none, some 30⟩ : BookLineItem)].map (fun x => (itemDuration x).getD 0)).sum) ∧
    resolveTotalMinutes [⟨none, none⟩] = none :=
  ⟨c5_amended_duration_resolution.2.2.1 [⟨none, some 30⟩] (by decide),
   c5_amended_duration_resolution.2.2.2 [⟨none, none⟩] ⟨⟨none, none⟩, by simp, rfl⟩⟩

/-- Helper: the day loop returns `some true` exactly when every requested
day has a matching availability entry whose slot list covers all of the
day's requested slots. -/
theorem checkDays_eq_some_true_iff (avail : List AvailEntry)
    (l : List (Nat × List Nat)) :
    checkDays avail l = some true ↔
      ∀ p ∈ l, ∃ e, firstEntryFor avail p.1 = some e ∧ ∀ s ∈ p.2, s ∈ e.slot_times := by
  induction l with
  | nil => simp [checkDays]
  | cons p rest ih =>
    obtain ⟨d, slots⟩ := p
    cases hf : firstEntryFor avail d with
    | none =>
      have hL : checkDays avail ((d, slots) :: rest) = none := by
        simp only [checkDays, hf]
      rw [hL]
      constructor
      · intro h; exact Option.noConfusion h
      · intro h
        obtain ⟨e, he, _⟩ := h (d, slots) (List.mem_cons_self _ _)
        rw [hf] at he
        exact Option.noConfusion he
    | some a =>
      have hL : checkDays avail ((d, slots) :: rest) =
          if slots.all (fun s => a.slot_times.contains s) then checkDays avail rest
          else some false := by
        simp only [checkDays, hf]
      rw [hL]
      by_cases hall : slots.all (fun s => a.slot_times.contains s) = true
      · rw [if_pos hall, ih]
        constructor
        · intro h q hq
          rcases List.mem_cons.mp hq with hq1 | hq2
          · subst hq1
            refine ⟨a, hf, fun s hs => ?_⟩
            exact List.elem_iff.mp (List.all_eq_true.mp hall s hs)
          · exact h q hq2
        · intro h q hq
          exact h q (List.mem_cons_of_mem _ hq)
      · rw [if_neg hall]
        constructor
        · intro h
          exact absurd (Option.some.inj h) Bool.false_ne_true
        · intro h
          obtain ⟨e, he, hcov⟩ := h (d, slots) (List.mem_cons_self _ _)
          rw [hf] at he
          obtain rfl : a = e := Option.some.inj he
          refine absurd (List.all_eq_true.mpr fun s hs => ?_) hall
          exact List.elem_iff.mpr (hcov s hs)

/-- Helper: when every requested day has an availability entry, the day
loop completes with a boolean — no exception. -/
theorem checkDays_isSome (avail : List AvailEntry) (l : List (Nat × List Nat))
    (h : ∀ p ∈ l, (firstEntryFor avail p.1).isSome = true) :
    ∃ b, checkDays avail l = some b := by
  induction l with
  | nil => exact ⟨true, rfl⟩
  | cons p rest ih =>
    obtain ⟨d, slots⟩ := p
    cases hf : firstEntryFor avail d with
    | none =>
      have := h (d, slots) (List.mem_cons_self _ _)
      rw [hf] at this
      exact absurd this (by simp)
    | some a =>
      have hL : checkDays avail ((d, slots) :: rest) =
          if slots.all (fun s => a.slot_times.contains s) then checkDays avail rest
          else some false := by
        simp only [checkDays, hf]
      rw [hL]
      by_cases hall : slots.all (fun s => a.slot_times.contains s) = true
      · rw [if_pos hall]
        exact ih fun q hq => h q (List.mem_cons_of_mem _ hq)
      · exact ⟨false, by rw [if_neg hall]⟩

/-- C3 (amended): `isSlotTimeAvailable` returns `some true` exactly when
every discretized slot of every spanned day is a member of the first
matching availability entry for that day; when every spanned day has an
entry, the function returns a boolean and never throws. But when a spanned
day has no entry in the availability, it evaluates `undefined.slot_times`
and throws a TypeError (modelled `none`) instead of returning false. -/
theorem c3_amended_validator :
    (∀ (tfrom tto : Nat) (avail : List AvailEntry),
      isSlotTimeAvailable tfrom tto avail = some true ↔
        ∀ p ∈ divideTimes tfrom tto isSlotTimeAvailable_divideBy,
          ∃ e, firstEntryFor avail p.1 = some e ∧ ∀ s ∈ p.2, s ∈ e.slot_times) ∧
    (∀ (tfrom tto : Nat) (avail : List AvailEntry),
      (∀ p ∈ divideTimes tfrom tto isSlotTimeAvailable_divideBy,
        (firstEntryFor avail p.1).isSome = true) →
      ∃ b, isSlotTimeAvailable tfrom tto avail = some b) := by
  constructor
  · intro tfrom tto avail
    exact checkDays_eq_some_true_iff avail _
  · intro tfrom tto avail h
    exact checkDays_isSome avail _ h

/-- C3 witness: on the blocked-noon availability, a request covered by the
free slots validates to `some true`, and a request on a day with an entry
— but not fully covered — still returns a boolean. -/
theorem c3_amended_validator_witness :
    (isSlotTimeAvailable 600 610 [⟨0, [600, 605]⟩] = some true ↔
      ∀ p ∈ divideTimes 600 610 isSlotTimeAvailable_divideBy,
        ∃ e, firstEntryFor [⟨0, [600, 605]⟩] p.1 = some e ∧
          ∀ s ∈ p.2, s ∈ e.slot_times) ∧
    ∃ b, isSlotTimeAvailable 700 710 [⟨0, [600, 605]⟩] = some b :=
  ⟨c3_amended_validator.1 600 610 [⟨0, [600, 605]⟩],
   c3_amended_validator.2 700 710 [⟨0, [600, 605]⟩] (by decide)⟩

/-! ## Day-keyed map lemmas -/

/-- Helper: cons-step of `lookupDay` when the head matches. -/
theorem lookupDay_cons_of_pos (e : Nat × List Nat) (m : List (Nat × List Nat)) (d : Nat)
    (h : (e.1 == d) = true) : lookupDay (e :: m) d = some e.2 := by
  simp [lookupDay, List.find?_cons, h]

/-- Helper: cons-step of `lookupDay` when the head does not match. -/
theorem lookupDay_cons_of_neg (e : Nat × List Nat) (m : List (Nat × List Nat)) (d : Nat)
    (h : (e.1 == d) = false) : lookupDay (e :: m) d = lookupDay m d := by
  simp [lookupDay, List.find?_cons, h]

/-- Helper: overwriting assignment stores the value under its key
(overwrite branch). -/
theorem lookupDay_map_overwrite (m : List (Nat × List Nat)) (k : Nat) (v : List Nat)
    (h : m.any (fun e => e.1 == k) = true) :
    lookupDay (m.map (fun e => if e.1 == k then (k, v) else e)) k = some v := by
  induction m with
  | nil => cases h
  | cons e m ih =>
    rw [List.map_cons]
    rcases Bool.eq_false_or_eq_true (e.1 == k) with he | he
    · rw [show (if e.1 == k then (k, v) else e) = ((k, v) : Nat × List Nat) from if_pos he,
        lookupDay_cons_of_pos _ _ _ (by simp)]
    · have hm : m.any (fun e => e.1 == k) = true := by
        rcases List.any_eq_true.mp h with ⟨x, hx, hxk⟩
        rcases List.mem_cons.mp hx with rfl | hx2
        · rw [he] at hxk; cases hxk
        · exact List.any_eq_true.mpr ⟨x, hx2, hxk⟩
      rw [show (if e.1 == k then (k, v) else e) = e from if_neg (by simp [he]),
        lookupDay_cons_of_neg e _ k he]
      exact ih hm

/-- Helper: appending a fresh binding stores the value under its key. -/
theorem lookupDay_append_single (m : List (Nat × List Nat)) (k : Nat) (v : List Nat)
    (h : m.any (fun e => e.1 == k) = false) :
    lookupDay (m ++ [(k, v)]) k = some v := by
  induction m with
  | nil =>
    rw [List.nil_append, lookupDay_cons_of_pos _ _ _ (by simp)]
  | cons e m ih =>
    have he : (e.1 == k) = false := by
      cases hc : (e.1 == k) with
      | true =>
        have habs : (e :: m).any (fun e => e.1 == k) = true :=
          List.any_eq_true.mpr ⟨e, List.mem_cons_self e m, hc⟩
        rw [h] at habs; cases habs
      | false => rfl
    have hm : m.any (fun e => e.1 == k) = false := by
      cases hc : m.any (fun e => e.1 == k) with
      | true =>
        rcases List.any_eq_true.mp hc with ⟨x, hx, hxk⟩
        have habs : (e :: m).any (fun e => e.1 == k) = true :=
          List.any_eq_true.mpr ⟨x, List.mem_cons_of_mem e hx, hxk⟩
        rw [h] at habs; cases habs
      | false => rfl
    rw [List.cons_append, lookupDay_cons_of_neg e _ k he]
    exact ih hm

/-- Helper: `m[k] = v` makes `m[k]` read back `v`. -/
theorem lookupDay_setDay_self (m : List (Nat × List Nat)) (k : Nat) (v : List Nat) :
    lookupDay (setDay m k v) k = some v := by
  unfold setDay
  cases h : m.any (fun e => e.1 == k) with
  | true =>
    rw [if_pos rfl]
    exact lookupDay_map_overwrite m k v h
  | false =>
    rw [if_neg Bool.false_ne_true]
    exact lookupDay_append_single m k v h

/-- Helper: the overwrite branch leaves other keys unchanged. -/
theorem lookupDay_map_overwrite_ne (m : List (Nat × List Nat)) (k : Nat) (v : List Nat)
    (d : Nat) (h : k ≠ d) :
    lookupDay (m.map (fun e => if e.1 == k then (k, v) else e)) d = lookupDay m d := by
  induction m with
  | nil => rfl
  | cons e m ih =>
    rw [List.map_cons]
    rcases Bool.eq_false_or_eq_true (e.1 == k) with he | he
    · have hek : e.1 = k := by simpa using he
      rw [show (if e.1 == k then (k, v) else e) = ((k, v) : Nat × List Nat) from if_pos he,
        lookupDay_cons_of_neg _ _ d (by simp [h]), lookupDay_cons_of_neg e m d (by simp [hek, h])]
      exact ih
    · rw [show (if e.1 == k then (k, v) else e) = e from if_neg (by simp [he])]
      rcases Bool.eq_false_or_eq_true (e.1 == d) with hd | hd
      · rw [lookupDay_cons_of_pos _ _ d hd, lookupDay_cons_of_pos e m d hd]
      · rw [lookupDay_cons_of_neg _ _ d hd, lookupDay_cons_of_neg e m d hd]
        exact ih

/-- Helper: appending a binding for another key changes nothing at `d`. -/
theorem lookupDay_append_ne (m : List (Nat × List Nat)) (k : Nat) (v : List Nat)
    (d : Nat) (h : k ≠ d) :
    lookupDay (m ++ [(k, v)]) d = lookupDay m d := by
  induction m with
  | nil =>
    rw [List.nil_append, lookupDay_cons_of_neg _ _ d (by simp [h])]
  | cons e m ih =>
    rw [List.cons_append]
    rcases Bool.eq_false_or_eq_true (e.1 == d) with hd | hd
    · rw [lookupDay_cons_of_pos _ _ d hd, lookupDay_cons_of_pos e m d hd]
    · rw [lookupDay_cons_of_neg _ _ d hd, lookupDay_cons_of_neg e m d hd]
      exact ih

/-- Helper: `m[k] = v` leaves other keys unchanged. -/
theorem lookupDay_setDay_ne (m : List (Nat × List Nat)) (k : Nat) (v : List Nat)
    (d : Nat) (h : k ≠ d) :
    lookupDay (setDay m k v) d = lookupDay m d := by
  unfold setDay
  cases ha : m.any (fun e => e.1 == k) with
  | true =>
    rw [if_pos rfl]
    exact lookupDay_map_overwrite_ne m k v d h
  | false =>
    rw [if_neg Bool.false_ne_true]
    exact lookupDay_append_ne m k v d h

/-- Helper: a key that reads back nothing occurs nowhere. -/
theorem any_eq_false_of_lookupDay_none (m : List (Nat × List Nat)) (k : Nat)
    (h : lookupDay m k = none) : m.any (fun e => e.1 == k) = false := by
  cases ha : m.any (fun e => e.1 == k) with
  | false => rfl
  | true =>
    exfalso
    rcases List.any_eq_true.mp ha with ⟨x, hx, hxk⟩
    have hf : m.find? (fun e => e.1 == k) = none := by
      unfold lookupDay at h
      cases hfind : m.find? (fun e => e.1 == k) with
      | none => rfl
      | some y => rw [hfind] at h; cases h
    exact (List.find?_eq_none.mp hf x hx) hxk

/-- Helper: pushing onto `m[k]` appends to the stored list (empty when
absent). -/
theorem lookupDay_appendDay_self (m : List (Nat × List Nat)) (k : Nat) (v : List Nat) :
    lookupDay (appendDay m k v) k = some ((lookupDay m k).getD [] ++ v) := by
  unfold appendDay
  cases hl : lookupDay m k with
  | none =>
    rw [lookupDay_append_single m k v (any_eq_false_of_lookupDay_none m k hl)]
    simp
  | some old =>
    rw [lookupDay_setDay_self]
    simp

/-- Helper: pushing onto `m[k]` leaves other keys unchanged. -/
theorem lookupDay_appendDay_ne (m : List (Nat × List Nat)) (k : Nat) (v : List Nat)
    (d : Nat) (h : k ≠ d) :
    lookupDay (appendDay m k v) d = lookupDay m d := by
  unfold appendDay
  cases hl : lookupDay m k with
  | none => exact lookupDay_append_ne m k v d h
  | some old => exact lookupDay_setDay_ne m k (old ++ v) d h

/-! ## Characterization of the two accumulation loops of getSlotTime -/

/-- Helper: the `workingTimes` loop stores, for each day, the
discretization of the last-processed period keyed to that day — earlier
periods on the same day are overwritten. -/
theorem lookupDay_workingFold_aux (ps : List Timeperiod) (m : List (Nat × List Nat))
    (d : Nat) :
    lookupDay (ps.foldl (fun m x => setDay m (dayOf x.tfrom) (periodSlots x)) m) d =
      match (dayFilter ps d).getLast? with
      | some p => some (periodSlots p)
      | none => lookupDay m d := by
  induction ps using List.reverseRecOn generalizing m with
  | nil => simp [dayFilter]
  | append_singleton qs x ih =>
    rw [List.foldl_append, List.foldl_cons, List.foldl_nil]
    rcases Bool.eq_false_or_eq_true (dayOf x.tfrom == d) with hb | hb
    · have hd : dayOf x.tfrom = d := by simpa using hb
      rw [hd, lookupDay_setDay_self]
      have hf : dayFilter (qs ++ [x]) d = dayFilter qs d ++ [x] := by
        simp [dayFilter, List.filter_append, hb]
      rw [hf, List.getLast?_concat]
    · have hd : dayOf x.tfrom ≠ d := by simpa using hb
      rw [lookupDay_setDay_ne _ _ _ _ hd]
      have hf : dayFilter (qs ++ [x]) d = dayFilter qs d := by
        simp [dayFilter, List.filter_append, hb]
      rw [hf]
      exact ih m

/-- Helper: the `blockedTimes` loop concatenates, for each day, the
discretizations of every period keyed to that day. -/
theorem lookupDay_blockedFold_aux (ps : List Timeperiod) (m : List (Nat × List Nat))
    (d : Nat) :
    lookupDay (ps.foldl (fun m x => appendDay m (dayOf x.tfrom) (periodSlots x)) m) d =
      match lookupDay m d with
      | some old => some (old ++ ((dayFilter ps d).map periodSlots).flatten)
      | none =>
        if dayFilter ps d = [] then none
        else some (((dayFilter ps d).map periodSlots).flatten) := by
  induction ps using List.reverseRecOn generalizing m with
  | nil =>
    cases hm : lookupDay m d <;> simp [dayFilter, hm]
  | append_singleton qs x ih =>
    rw [List.foldl_append, List.foldl_cons, List.foldl_nil]
    rcases Bool.eq_false_or_eq_true (dayOf x.tfrom == d) with hb | hb
    · have hd : dayOf x.tfrom = d := by simpa using hb
      rw [hd, lookupDay_appendDay_self, ih m]
      have hf : dayFilter (qs ++ [x]) d = dayFilter qs d ++ [x] := by
        simp [dayFilter, List.filter_append, hb]
      rw [hf]
      cases hm : lookupDay m d with
      | some old => simp
      | none =>
        by_cases hq : dayFilter qs d = []
        · simp [hq]
        · simp [hq]
    · have hd : dayOf x.tfrom ≠ d := by simpa using hb
      rw [lookupDay_appendDay_ne _ _ _ _ hd]
      have hf : dayFilter (qs ++ [x]) d = dayFilter qs d := by
        simp [dayFilter, List.filter_append, hb]
      rw [hf]
      exact ih m

/-- C6 (amended): the per-day working slot set used by availability
computation is not a union — `workingTimes[day] = divideTimes(...)`
overwrites, so only the last-processed working interval keyed to a day
survives (`getLast?` of the day's periods in processing order). The
per-day blocking slot set, by contrast, is the concatenation (union with
multiplicity) of all blocking intervals' discretizations for the day. -/
theorem c6_amended_overwrite_vs_union :
    (∀ (ps : List Timeperiod) (d : Nat),
      lookupDay (workingTimesFold ps) d = ((dayFilter ps d).getLast?).map periodSlots) ∧
    (∀ (ps : List Timeperiod) (d : Nat),
      lookupDay (blockedTimesFold ps) d =
        if dayFilter ps d = [] then none
        else some (((dayFilter ps d).map periodSlots).flatten)) := by
  constructor
  · intro ps d
    unfold workingTimesFold
    rw [lookupDay_workingFold_aux ps [] d]
    cases (dayFilter ps d).getLast? <;> rfl
  · intro ps d
    unfold blockedTimesFold
    rw [lookupDay_blockedFold_aux ps [] d]
    rfl

/-! ## Membership of the timeperiod listing -/

/-- Helper: insertion keeps exactly the inserted element plus the rest. -/
theorem mem_insertByFromDesc (p q : Timeperiod) (l : List Timeperiod) :
    q ∈ insertByFromDesc p l ↔ q = p ∨ q ∈ l := by
  induction l with
  | nil => simp [insertByFromDesc]
  | cons x xs ih =>
    unfold insertByFromDesc
    by_cases h : x.tfrom ≤ p.tfrom
    · rw [if_pos h]
      simp [List.mem_cons]
    · rw [if_neg h]
      simp only [List.mem_cons, ih]
      tauto

/-- Helper: sorting by `from` descending preserves membership. -/
theorem mem_sortByFromDesc (l : List Timeperiod) (q : Timeperiod) :
    q ∈ sortByFromDesc l ↔ q ∈ l := by
  induction l with
  | nil => simp [sortByFromDesc]
  | cons x xs ih =>
    unfold sortByFromDesc at ih ⊢
    rw [List.foldr_cons, mem_insertByFromDesc, ih]
    simp [List.mem_cons]

/-- C8 (amended): the fetch used by `getSlotTime` includes exactly the
periods of the calendar with the requested type whose `from` AND `to` both
lie inside `[dateFrom, dateTo]` — a period that starts before the window or
ends after it is excluded even when it intersects the window. -/
theorem c8_amended_window_filter :
    ∀ (tps : List Timeperiod) (cid : Nat) (types : List TPType)
      (dateFrom dateTo : Nat) (p : Timeperiod),
      p ∈ listTimeperiods tps cid types dateFrom dateTo ↔
        p ∈ tps ∧ p.calendar_id = cid ∧ p.type ∈ types ∧
          dateFrom ≤ p.tfrom ∧ p.tfrom ≤ dateTo ∧ dateFrom ≤ p.tto ∧ p.tto ≤ dateTo := by
  intro tps cid types a b p
  unfold listTimeperiods
  rw [mem_sortByFromDesc, List.mem_filter]
  simp [timeperiodMatches, List.elem_iff, and_assoc]

/-- C8 witness: the straddling period of the counterexample satisfies the
amended characterization (it fails the `from`-in-window conjunct). -/
theorem c8_amended_window_filter_witness :
    Timeperiod.mk 1 1 .working_hour 50 150 none ∈
        listTimeperiods [⟨1, 1, .working_hour, 50, 150, none⟩] 1 [.working_hour] 100 1640 ↔
      (Timeperiod.mk 1 1 .working_hour 50 150 none ∈
          ([⟨1, 1, .working_hour, 50, 150, none⟩] : List Timeperiod) ∧
        (Timeperiod.mk 1 1 .working_hour 50 150 none).calendar_id = 1 ∧
        (Timeperiod.mk 1 1 .working_hour 50 150 none).type ∈ [TPType.working_hour] ∧
        100 ≤ (Timeperiod.mk 1 1 .working_hour 50 150 none).tfrom ∧
        (Timeperiod.mk 1 1 .working_hour 50 150 none).tfrom ≤ 1640 ∧
        100 ≤ (Timeperiod.mk 1 1 .working_hour 50 150 none).tto ∧
        (Timeperiod.mk 1 1 .working_hour 50 150 none).tto ≤ 1640) :=
  c8_amended_window_filter [⟨1, 1, .working_hour, 50, 150, none⟩] 1 [.working_hour]
    100 1640 ⟨1, 1, .working_hour, 50, 150, none⟩

/-! ## Key uniqueness of the day maps -/

/-- Helper: a key absent from the map (by `any`) is not among its keys. -/
theorem not_mem_keys_of_any_eq_false (m : List (Nat × List Nat)) (k : Nat)
    (ha : m.any (fun e => e.1 == k) = false) : k ∉ m.map Prod.fst := by
  intro hmem
  rcases List.mem_map.mp hmem with ⟨e, he, hfst⟩
  have habs : m.any (fun e => e.1 == k) = true :=
    List.any_eq_true.mpr ⟨e, he, by simp [hfst]⟩
  rw [ha] at habs
  cases habs

/-- Helper: assignment preserves distinctness of the keys. -/
theorem nodup_keys_setDay (m : List (Nat × List Nat)) (k : Nat) (v : List Nat)
    (h : (m.map Prod.fst).Nodup) : ((setDay m k v).map Prod.fst).Nodup := by
  unfold setDay
  rcases Bool.eq_false_or_eq_true (m.any (fun e => e.1 == k)) with ha | ha
  · rw [if_pos ha, List.map_map]
    have hcongr : m.map (Prod.fst ∘ fun e => if e.1 == k then (k, v) else e) =
        m.map Prod.fst := by
      apply List.map_congr_left
      intro e he
      rcases Bool.eq_false_or_eq_true (e.1 == k) with hek | hek
      · have h1 : e.1 = k := by simpa using hek
        show Prod.fst (if e.1 == k then (k, v) else e) = e.1
        rw [if_pos hek]
        exact h1.symm
      · show Prod.fst (if e.1 == k then (k, v) else e) = e.1
        rw [if_neg (by simp [hek])]
    rw [hcongr]
    exact h
  · rw [if_neg (by simp [ha]), List.map_append]
    have hk := not_mem_keys_of_any_eq_false m k ha
    simp [List.nodup_append, h, hk]

/-- Helper: accumulation preserves distinctness of the keys. -/
theorem nodup_keys_appendDay (m : List (Nat × List Nat)) (k : Nat) (v : List Nat)
    (h : (m.map Prod.fst).Nodup) : ((appendDay m k v).map Prod.fst).Nodup := by
  unfold appendDay
  cases hl : lookupDay m k with
  | none =>
    rw [List.map_append]
    have hk := not_mem_keys_of_any_eq_false m k (any_eq_false_of_lookupDay_none m k hl)
    simp [List.nodup_append, h, hk]
  | some old => exact nodup_keys_setDay m k (old ++ v) h

/-- Helper: the `workingTimes` fold keeps its day keys distinct. -/
theorem nodup_keys_workingFold (ps : List Timeperiod) (m : List (Nat × List Nat))
    (h : (m.map Prod.fst).Nodup) :
    (((ps.foldl (fun m x => setDay m (dayOf x.tfrom) (periodSlots x)) m)).map Prod.fst).Nodup := by
  induction ps generalizing m with
  | nil => exact h
  | cons x ps ih => exact ih _ (nodup_keys_setDay _ _ _ h)

/-- Helper: a stored binding reads back when the keys are distinct. -/
theorem lookupDay_eq_of_mem (m : List (Nat × List Nat)) (w : Nat × List Nat)
    (hnd : (m.map Prod.fst).Nodup) (hm : w ∈ m) : lookupDay m w.1 = some w.2 := by
  induction m with
  | nil => cases hm
  | cons e m ih =>
    rw [List.map_cons] at hnd
    rcases List.mem_cons.mp hm with rfl | hm2
    · rw [lookupDay_cons_of_pos _ _ _ (by simp)]
    · rcases Bool.eq_false_or_eq_true (e.1 == w.1) with hed | hed
      · exfalso
        have h1 : e.1 = w.1 := by simpa using hed
        have h2 : w.1 ∈ m.map Prod.fst := List.mem_map.mpr ⟨w, hm2, rfl⟩
        have h3 := (List.nodup_cons.mp hnd).1
        rw [h1] at h3
        exact h3 h2
      · rw [lookupDay_cons_of_neg _ _ _ hed]
        exact ih (List.nodup_cons.mp hnd).2 hm2

/-- C7: per availability entry, a slot is listed exactly when it is in the
day's working slot set and not in the day's blocking slot set (set
difference); a day with no working-hour period in the fetched window gets
no entry at all; and on the concrete blocked-noon calendar (working
`[540, 1020)`, breaktime `[720, 780)`, granularity 15) the single entry
excludes exactly the four grid points 720..765. -/
theorem c7_availability_subtraction :
    (∀ (tps : List Timeperiod) (cid a b : Nat),
      ∀ e ∈ calendarAvailability tps cid a b, ∀ t : Nat,
        t ∈ e.slot_times ↔
          t ∈ workingSlotsOf tps cid a b e.date ∧
            t ∉ blockedSlotsOf tps cid a b e.date) ∧
    (∀ (tps : List Timeperiod) (cid a b d : Nat),
      (∀ p ∈ listTimeperiods tps cid [.working_hour] a b, dayOf p.tfrom ≠ d) →
      ∀ e ∈ calendarAvailability tps cid a b, e.date ≠ d) ∧
    calendarAvailability
        [⟨1, 1, .working_hour, 540, 1020, none⟩, ⟨2, 1, .breaktime, 720, 780, none⟩]
        1 0 2000 =
      [⟨0, [540, 555, 570, 585, 600, 615, 630, 645, 660, 675, 690, 705,
            780, 795, 810, 825, 840, 855, 870, 885, 900, 915, 930, 945,
            960, 975, 990, 1005]⟩] := by
  refine ⟨?_, ?_, by decide⟩
  · intro tps cid a b e he t
    simp only [calendarAvailability, List.mem_map] at he
    obtain ⟨w, hw, rfl⟩ := he
    have hW : lookupDay (workingTimesFold (listTimeperiods tps cid [.working_hour] a b)) w.1 =
        some w.2 :=
      lookupDay_eq_of_mem _ w (nodup_keys_workingFold _ [] (by simp)) hw
    simp only [workingSlotsOf, blockedSlotsOf]
    rw [hW]
    cases hB : lookupDay
        (blockedTimesFold (listTimeperiods tps cid [.breaktime, .blocked, .off] a b)) w.1 with
    | none => simp
    | some bs => simp [List.mem_filter, List.elem_iff]
  · intro tps cid a b d hnone e he
    simp only [calendarAvailability, List.mem_map] at he
    obtain ⟨w, hw, rfl⟩ := he
    intro hdate
    have hd : w.1 = d := hdate
    have hW : lookupDay (workingTimesFold (listTimeperiods tps cid [.working_hour] a b)) w.1 =
        some w.2 :=
      lookupDay_eq_of_mem _ w (nodup_keys_workingFold _ [] (by simp)) hw
    rw [hd] at hW
    have hfilter : dayFilter (listTimeperiods tps cid [.working_hour] a b) d = [] := by
      unfold dayFilter
      refine List.filter_eq_nil_iff.mpr (fun p hp => ?_)
      simpa using hnone p hp
    have hlook := lookupDay_workingFold_aux
      (listTimeperiods tps cid [.working_hour] a b) [] d
    rw [hfilter] at hlook
    simp only [List.getLast?_nil] at hlook
    unfold workingTimesFold at hW
    rw [hW] at hlook
    cases hlook

/-- C7 witness: on a one-period calendar, slot 540 of the single entry is
in the working set and outside the (empty) blocking set. -/
theorem c7_availability_subtraction_witness :
    (540 ∈ (AvailEntry.mk 0 [540, 555, 570, 585]).slot_times ↔
      540 ∈ workingSlotsOf [⟨1, 1, .working_hour, 540, 600, none⟩] 1 0 2000
          (AvailEntry.mk 0 [540, 555, 570, 585]).date ∧
        540 ∉ blockedSlotsOf [⟨1, 1, .working_hour, 540, 600, none⟩] 1 0 2000
          (AvailEntry.mk 0 [540, 555, 570, 585]).date) ∧
    (AvailEntry.mk 0 [540, 555, 570, 585]).date ≠ 3 :=
  ⟨c7_availability_subtraction.1 [⟨1, 1, .working_hour, 540, 600, none⟩] 1 0 2000
      (AvailEntry.mk 0 [540, 555, 570, 585]) (by decide) 540,
   c7_availability_subtraction.2.1 [⟨1, 1, .working_hour, 540, 600, none⟩] 1 0 2000 3
      (by decide) (AvailEntry.mk 0 [540, 555, 570, 585]) (by decide)⟩

/-- C4 witness: an order whose scheduled appointment is its only row (so
within the inspected 50) is rejected with the duplicate Conflict and the
store is untouched; an order with no scheduled appointment among the
inspected rows never sees that rejection. -/
theorem c4_amended_duplicate_check_witness :
    makeAppointment
        ⟨[⟨0, some 10, .scheduled, none, none, false, none, false⟩], [], [1], [1], [], 1⟩
        ⟨10, 1, 1, 600⟩ [] none =
      (.error .orderAlreadyHaveAppointment,
        ⟨[⟨0, some 10, .scheduled, none, none, false, none, false⟩], [], [1], [1], [], 1⟩) ∧
    (makeAppointment ⟨[], [], [1], [1], [], 0⟩ ⟨10, 1, 1, 600⟩ [] none).1 ≠
      .error .orderAlreadyHaveAppointment :=
  ⟨c4_amended_duplicate_check.2.1
      ⟨[⟨0, some 10, .scheduled, none, none, false, none, false⟩], [], [1], [1], [], 1⟩
      ⟨10, 1, 1, 600⟩ [] none [] (by decide) (by decide),
   c4_amended_duplicate_check.2.2
      ⟨[], [], [1], [1], [], 0⟩ ⟨10, 1, 1, 600⟩ [] none (by decide)⟩

/-- C10 witness: deleting a missing id is the identity; deleting a live
row soft-removes it and emits the event. -/
theorem c10_delete_idempotent_witness :
    deleteAppointment ⟨[], [], [], [], [], 0⟩ 5 = ⟨[], [], [], [], [], 0⟩ ∧
    ((deleteAppointment
        ⟨[⟨7, none, .draft, none, none, false, none, false⟩], [], [], [], [], 8⟩ 7).appointments =
      [(⟨7, none, .draft, none, none, false, none, false⟩ : Appointment)].map (fun a =>
        if a.id == 7 && !a.deleted then { a with deleted := true } else a) ∧
     (deleteAppointment
        ⟨[⟨7, none, .draft, none, none, false, none, false⟩], [], [], [], [], 8⟩ 7).events =
      [] ++ [.deleted 7]) :=
  ⟨c10_delete_idempotent.1 ⟨[], [], [], [], [], 0⟩ 5 (by decide),
   c10_delete_idempotent.2.1
      ⟨[⟨7, none, .draft, none, none, false, none, false⟩], [], [], [], [], 8⟩ 7
      ⟨7, none, .draft, none, none, false, none, false⟩ (by decide)⟩

end MedusaService
